import Mathlib

/-!
Shallow embedding of the comoda-backfill ingestion pipeline
(src/ingestion/backfill_coinapi.py, backfill_cryptopanic.py,
backfill_lunarcrush.py and src/utils/schemas.py), together with proofs
about the embedded functions.

Modelling conventions:
* Calendar dates are day numbers (`Int`); `date + timedelta(days=1)` is `d + 1`.
* Numeric JSON values are `Rat` (exact arithmetic standing in for Python floats).
* An HTTP interaction is driven by a list of environment events, one per
  request the code issues: either the request raises a transport exception
  (`raise`) or it yields a response with a status code, a body text, and a
  parsed-JSON payload (`none` models a body on which `r.json()` raises).
* A fetch function returns `Except String records × List Ev`: the `Except`
  is `.error m` exactly when a Python exception would escape the function,
  and the trace records requests, sleeps and logged error events.
-/

/-- Python str.upper() on ASCII strings, as used to normalize token
symbols at the boundary. -/
def pyUpper (s : String) : String := String.mk (s.data.map Char.toUpper)

/-- Propositional equality of fetch results is decidable. -/
instance {e a : Type} [DecidableEq e] [DecidableEq a] :
    DecidableEq (Except e a) := fun x y =>
  match x, y with
  | Except.ok u, Except.ok v =>
    if h : u = v then isTrue (by rw [h])
    else isFalse (by intro hh; cases hh; exact h rfl)
  | Except.ok _, Except.error _ => isFalse (by intro hh; cases hh)
  | Except.error _, Except.ok _ => isFalse (by intro hh; cases hh)
  | Except.error u, Except.error v =>
    if h : u = v then isTrue (by rw [h])
    else isFalse (by intro hh; cases hh; exact h rfl)

/-- Canonical record of src/utils/schemas.py: BFHistoricalMarketData. -/
structure BFHistoricalMarketData where
  token_symbol : String
  date : Int
  open_price : Rat
  high_price : Rat
  low_price : Rat
  close_price : Rat
  volume : Rat
  timestamp_fetched : Int
  source_api : String
  backfill_run_id : String
  deriving DecidableEq

/-- Canonical record of src/utils/schemas.py: BFMarketNewsEvents. -/
structure BFMarketNewsEvents where
  token_symbol : String
  date : Int
  title : String
  description : String
  source : String
  sentiment_score : Rat
  url : String
  timestamp_fetched : Int
  backfill_run_id : String
  deriving DecidableEq

/-- Canonical record of src/utils/schemas.py: BFMarketSentiment. -/
structure BFMarketSentiment where
  token_symbol : String
  date : Int
  sentiment_score : Rat
  positive_mentions : Int
  negative_mentions : Int
  neutral_mentions : Int
  source_api : String
  timestamp_fetched : Int
  backfill_run_id : String
  deriving DecidableEq

/-- Observable side effects of a fetch function: HTTP requests issued,
the 1-second backoff sleep, and structured error-log events. -/
inductive Ev where
  | request
  | sleep1s
  | logError (tag : String)
  deriving DecidableEq

namespace Coinapi

/-- One JSON row of the CoinAPI OHLCV response; `none` fields are keys the
provider omitted (looked up with row.get(key, 0.0) in the source). -/
structure CoinRow where
  price_open : Option Rat
  price_high : Option Rat
  price_low : Option Rat
  price_close : Option Rat
  volume_traded : Option Rat
  deriving DecidableEq

/-- Environment event for one client.get call in fetch_day: the call raises
a transport exception, or returns status/text and, when the body is valid
JSON, the decoded list of rows (`none` payload: r.json() raises). -/
inductive CoinEvent where
  | raise (msg : String)
  | resp (status : Nat) (text : String) (payload : Option (List CoinRow))
  deriving DecidableEq

/-- A request beyond the supplied environment is a lost connection. -/
def nthEvent (env : List CoinEvent) (i : Nat) : CoinEvent :=
  (env.get? i).getD (CoinEvent.raise "connection_lost")

/-- Record construction of backfill_coinapi.fetch_day lines 55-66: each
price field defaults to 0.0 when the provider omits it, source_api is
"coinapi" and backfill_run_id is left empty. -/
def mkCoinItem (symbol : String) (day : Int) (now : Int) (row : CoinRow) :
    BFHistoricalMarketData :=
  { token_symbol := symbol
    date := day
    open_price := row.price_open.getD 0
    high_price := row.price_high.getD 0
    low_price := row.price_low.getD 0
    close_price := row.price_close.getD 0
    volume := row.volume_traded.getD 0
    timestamp_fetched := now
    source_api := "coinapi"
    backfill_run_id := "" }

/-- Lines 43-47 of backfill_coinapi.py: after the first GET returned
status s, on 429 sleep one second and retry exactly once, the retry
outcome replacing the response; otherwise keep the first response. -/
def retryOn429 (env : List CoinEvent) (s : Nat)
    (p : Option (List CoinRow)) :
    Except String (Nat × Option (List CoinRow)) × List Ev :=
  if s == 429 then
    match nthEvent env 1 with
    | CoinEvent.raise m =>
        (Except.error m, [Ev.request, Ev.sleep1s, Ev.request])
    | CoinEvent.resp s2 _t2 p2 =>
        (Except.ok (s2, p2), [Ev.request, Ev.sleep1s, Ev.request])
  else (Except.ok (s, p), [Ev.request])

/-- Lines 48-67 of backfill_coinapi.py: non-200 after the retry logs and
returns []; otherwise the decoded body (a body r.json() rejects is
`.error`; empty data is []; else the first row becomes one record). -/
def parseBody (symbol : String) (day now : Int) (s3 : Nat)
    (p3 : Option (List CoinRow)) (tr : List Ev) :
    Except String (List BFHistoricalMarketData) × List Ev :=
  if s3 ≠ 200 then
    (Except.ok [], tr ++ [Ev.logError "coinapi_http_error"])
  else
    match p3 with
    | none => (Except.error "json_decode_error", tr)
    | some [] => (Except.ok [], tr)
    | some (row :: _) =>
        (Except.ok [mkCoinItem symbol day now row], tr)

/-- Body of the try-block of backfill_coinapi.fetch_day lines 43-67:
first GET, then the single-retry policy, then status check and body
parse. `.error` means an exception reached the except clause. -/
def fetch_day_try (env : List CoinEvent) (symbol : String) (day : Int)
    (now : Int) : Except String (List BFHistoricalMarketData) × List Ev :=
  match nthEvent env 0 with
  | CoinEvent.raise m => (Except.error m, [Ev.request])
  | CoinEvent.resp s _t p =>
    match retryOn429 env s p with
    | (Except.error m, tr) => (Except.error m, tr)
    | (Except.ok (s3, p3), tr) => parseBody symbol day now s3 p3 tr

/-- Model of backfill_coinapi.fetch_day lines 42-70: the whole body runs inside
try/except, so any exception is caught, logged, and turned into []. -/
def fetch_day (env : List CoinEvent) (symbol : String) (day : Int)
    (now : Int) : Except String (List BFHistoricalMarketData) × List Ev :=
  match fetch_day_try env symbol day now with
  | (Except.ok recs, tr) => (Except.ok recs, tr)
  | (Except.error _, tr) =>
      (Except.ok [], tr ++ [Ev.logError "coinapi_exception"])

end Coinapi

/-- Effects of the persistence sink: export-file writes, the per-run
transaction, row inserts, and the final commit or rollback. -/
inductive PersistEv where
  | exportCsv (name : String) (nrows : Nat)
  | exportParquet (name : String) (nrows : Nat)
  | txBegin
  | insertRow
  | txCommit
  | txRollback
  deriving DecidableEq

/-- True exactly on a durable-table insert event. -/
def isInsertEv : PersistEv → Bool
  | PersistEv.insertRow => true
  | _ => false

/-- Events a run coordinator emits: one fetch per work item, one hand-off
of the accumulated batch to the sink, and the completion log. -/
inductive RunEv where
  | fetchItem (token : String) (day : Int)
  | fetchTok (token : String)
  | persist (nrows : Nat)
  | logComplete (count : Nat)
  deriving DecidableEq

namespace Coinapi

/-- Model of backfill_coinapi.daterange lines 21-25: yield cur from start while
cur <= end, stepping one day. -/
def daterange (start stop : Int) : List Int :=
  if start ≤ stop then start :: daterange (start + 1) stop else []
termination_by (stop + 1 - start).toNat
decreasing_by omega

/-- External state touched by upsert_and_export: the export files already
on disk (name, rows) and the rows of table bf_historical_market_data. -/
structure SinkState where
  files : List (String × List BFHistoricalMarketData)
  table : List BFHistoricalMarketData
  deriving DecidableEq

/-- Name of the CSV snapshot, line 80 of backfill_coinapi.py. -/
def csvName (run_id : String) : String :=
  "coinapi_ohlcv_" ++ run_id ++ ".csv"

/-- Name of the parquet snapshot, line 81 of backfill_coinapi.py. -/
def parquetName (run_id : String) : String :=
  "coinapi_ohlcv_" ++ run_id ++ ".parquet"

/-- Line 78 of backfill_coinapi.py: df["backfill_run_id"] = run_id stamps
every accumulated row with the caller-supplied run id. -/
def stampRows (rows : List BFHistoricalMarketData) (run_id : String) :
    List BFHistoricalMarketData :=
  rows.map fun r => { r with backfill_run_id := run_id }

/-- Model of backfill_coinapi.upsert_and_export lines 73-99. Empty batch: return
immediately with no effect. Otherwise stamp the rows, write the CSV and
parquet snapshots, then insert every row inside one transaction.
`txFailAfter = some k` models the transaction raising after k successful
inserts (engine.begin rolls the durable write back); `none` is a clean
commit. -/
def upsert_and_export (rows : List BFHistoricalMarketData)
    (run_id : String) (txFailAfter : Option Nat) (st : SinkState) :
    SinkState × List PersistEv :=
  if rows.isEmpty then (st, [])
  else
    let stamped := stampRows rows run_id
    let exports := [PersistEv.exportCsv (csvName run_id) stamped.length,
                    PersistEv.exportParquet (parquetName run_id) stamped.length]
    let st1 : SinkState :=
      { st with files := st.files ++
          [(csvName run_id, stamped), (parquetName run_id, stamped)] }
    match txFailAfter with
    | none =>
        ({ st1 with table := st1.table ++ stamped },
         exports ++ [PersistEv.txBegin]
           ++ stamped.map (fun _ => PersistEv.insertRow)
           ++ [PersistEv.txCommit])
    | some k =>
        (st1,
         exports ++ [PersistEv.txBegin]
           ++ (stamped.take k).map (fun _ => PersistEv.insertRow)
           ++ [PersistEv.txRollback])

/-- Records a fetch produced; an escaped exception would abort the run, so
the coordinator only ever reads this off an .ok result (fetch_day never
returns .error, proved below). -/
def recsOf (r : Except String (List BFHistoricalMarketData) × List Ev) :
    List BFHistoricalMarketData :=
  match r.1 with
  | Except.ok l => l
  | Except.error _ => []

/-- Work items of backfill_coinapi.run lines 124-125: tokens in the outer
loop, the dates of daterange(start, end) in the inner loop. -/
def runWorkItems (tokens : List String) (start stop : Int) :
    List (String × Int) :=
  tokens.flatMap fun t => (daterange start stop).map fun d => (t, d)

/-- The batch main_async accumulates, lines 123-128: all records of all
work-item fetches, in visit order, with no intermediate flush. -/
def coinapiAllRows (envs : String → Int → List CoinEvent)
    (tokens : List String) (start stop : Int) (now : Int) :
    List BFHistoricalMarketData :=
  (runWorkItems tokens start stop).flatMap fun p =>
    recsOf (fetch_day (envs p.1 p.2) p.1 p.2 now)

/-- Model of backfill_coinapi.run main_async lines 121-130: fetch every work item,
call upsert_and_export once on the whole batch, log completion with the
accumulated count. -/
def coinapi_main (envs : String → Int → List CoinEvent)
    (tokens : List String) (start stop : Int) (now : Int)
    (run_id : String) (txFailAfter : Option Nat) (st : SinkState) :
    SinkState × List RunEv :=
  let all_rows := coinapiAllRows envs tokens start stop now
  let st2 := (upsert_and_export all_rows run_id txFailAfter st).1
  (st2,
   (runWorkItems tokens start stop).map (fun p => RunEv.fetchItem p.1 p.2)
     ++ [RunEv.persist all_rows.length, RunEv.logComplete all_rows.length])

end Coinapi

namespace Cryptopanic

/-- The votes object of a CryptoPanic item; absent counts are looked up
with votes.get(key) or 0 in the source. -/
structure CPVotes where
  bullish : Option Nat
  liked : Option Nat
  bearish : Option Nat
  disliked : Option Nat
  deriving DecidableEq

/-- The nested source object of an item; absent/falsy fields are none. -/
structure CPSource where
  title : Option String
  url : Option String
  deriving DecidableEq

/-- One item of a CryptoPanic posts page. A timestamp field is
`none` when absent or empty, `some none` when present but unparseable by
datetime.fromisoformat, and `some (some d)` when it parses to day d.
`panic_score` is `some q` exactly when the key holds a numeric value. -/
structure CPItem where
  published_at : Option (Option Int)
  created_at : Option (Option Int)
  title : Option String
  description : Option String
  body : Option String
  source : Option CPSource
  url : Option String
  panic_score : Option Rat
  votes : Option CPVotes
  deriving DecidableEq

/-- One page of the paginated posts response: the results list and the
continuation link payload.get("next"). -/
structure CPPayload where
  results : List CPItem
  nextUrl : Option String
  deriving DecidableEq

/-- Environment event for one client.get call of the pagination loop. -/
inductive CPEvent where
  | raise (msg : String)
  | resp (status : Nat) (text : String) (payload : Option CPPayload)
  deriving DecidableEq

/-- Model of backfill_cryptopanic._parse_date lines 21-25: parse the ISO timestamp;
on any parse failure fall back to today's UTC date. The first argument is
the parse result of the string. -/
def parse_date (parsed : Option Int) (today : Int) : Int :=
  parsed.getD today

/-- The date string chosen on line 64: it.get("published_at") or
it.get("created_at") or "" — and the parse result of that choice (the
empty string never parses). -/
def itemDateStr (it : CPItem) : Option Int :=
  match it.published_at with
  | some p => p
  | none =>
    match it.created_at with
    | some p => p
    | none => none

/-- Line 36 of the source: votes = item.get("votes") or {}. -/
def votesOf (it : CPItem) : CPVotes :=
  it.votes.getD { bullish := none, liked := none, bearish := none, disliked := none }

/-- Line 37: bullish = (votes.get("bullish") or 0) + (votes.get("liked") or 0). -/
def combinedBullish (it : CPItem) : Nat :=
  (votesOf it).bullish.getD 0 + (votesOf it).liked.getD 0

/-- Line 38: bearish = (votes.get("bearish") or 0) + (votes.get("disliked") or 0). -/
def combinedBearish (it : CPItem) : Nat :=
  (votesOf it).bearish.getD 0 + (votesOf it).disliked.getD 0

/-- Model of backfill_cryptopanic._sentiment_from_item lines 28-40: use a numeric
panic_score when present, else (bullish - bearish) / total over the
combined vote counts, and 0.0 when the total is zero. -/
def sentiment_from_item (it : CPItem) : Rat :=
  match it.panic_score with
  | some s => s
  | none =>
    let bullish := combinedBullish it
    let bearish := combinedBearish it
    let total := bullish + bearish
    if 0 < total then ((bullish : Rat) - (bearish : Rat)) / (total : Rat) else 0

/-- Record construction of fetch_posts lines 63-82: every string field
falls back along the source's or-chains, the date comes from parse_date,
and backfill_run_id is left empty. -/
def mkNewsItem (token : String) (now today : Int) (it : CPItem) :
    BFMarketNewsEvents :=
  let sourceObj := it.source.getD { title := none, url := none }
  { token_symbol := pyUpper token
    date := parse_date (itemDateStr it) today
    title := it.title.getD ""
    description := it.description.getD (it.body.getD "")
    source := sourceObj.title.getD "cryptopanic"
    sentiment_score := sentiment_from_item it
    url := it.url.getD (sourceObj.url.getD "")
    timestamp_fetched := now
    backfill_run_id := "" }

/-- Pagination loop of fetch_posts lines 57-83, one environment event per
iteration. There is no try/except in the source: a transport exception or
a json decode failure escapes as `.error`. A non-200 status (including
429) logs and breaks, returning the items gathered so far; no retry. -/
def fetch_posts_go (token : String) (now today : Int) :
    List CPEvent → List BFMarketNewsEvents →
    Except String (List BFMarketNewsEvents) × List Ev
  | [], _acc => (Except.error "connection_lost", [Ev.request])
  | e :: rest, acc =>
    match e with
    | CPEvent.raise m => (Except.error m, [Ev.request])
    | CPEvent.resp s _t p =>
      if s ≠ 200 then
        (Except.ok acc, [Ev.request, Ev.logError "cryptopanic_http_error"])
      else
        match p with
        | none => (Except.error "json_decode_error", [Ev.request])
        | some pl =>
          let acc2 := acc ++ pl.results.map (mkNewsItem token now today)
          match pl.nextUrl with
          | none => (Except.ok acc2, [Ev.request])
          | some _ =>
            let r := fetch_posts_go token now today rest acc2
            (r.1, Ev.request :: r.2)

/-- Model of backfill_cryptopanic.fetch_posts lines 43-84. -/
def fetch_posts (env : List CPEvent) (token : String) (now today : Int) :
    Except String (List BFMarketNewsEvents) × List Ev :=
  fetch_posts_go token now today env []

/-- Line 111 of the source: the client-side date-range filter
[x for x in items if start_d <= x.date <= end_d]. -/
def clientDateFilter (start stop : Int) (items : List BFMarketNewsEvents) :
    List BFMarketNewsEvents :=
  items.filter fun x => decide (start ≤ x.date) && decide (x.date ≤ stop)

/-- External state touched by the cryptopanic persistence section. -/
structure NewsSinkState where
  files : List (String × List BFMarketNewsEvents)
  table : List BFMarketNewsEvents
  deriving DecidableEq

/-- Name of the CSV snapshot, line 117 of backfill_cryptopanic.py. -/
def newsCsvName (run_id : String) : String :=
  "cryptopanic_news_" ++ run_id ++ ".csv"

/-- Name of the parquet snapshot, line 118 of backfill_cryptopanic.py. -/
def newsParquetName (run_id : String) : String :=
  "cryptopanic_news_" ++ run_id ++ ".parquet"

/-- Line 116: df["backfill_run_id"] = run_id. -/
def stampNews (rows : List BFMarketNewsEvents) (run_id : String) :
    List BFMarketNewsEvents :=
  rows.map fun r => { r with backfill_run_id := run_id }

/-- Persistence section of backfill_cryptopanic.run lines 114-133: an
empty accumulated batch skips the exports and the transaction entirely;
otherwise stamp, write both snapshots, then insert each row inside one
transaction (txFailAfter as in Coinapi.upsert_and_export). -/
def cryptopanic_persist (rows : List BFMarketNewsEvents) (run_id : String)
    (txFailAfter : Option Nat) (st : NewsSinkState) :
    NewsSinkState × List PersistEv :=
  if rows.isEmpty then (st, [])
  else
    let stamped := stampNews rows run_id
    let exports := [PersistEv.exportCsv (newsCsvName run_id) stamped.length,
                    PersistEv.exportParquet (newsParquetName run_id) stamped.length]
    let st1 : NewsSinkState :=
      { st with files := st.files ++
          [(newsCsvName run_id, stamped), (newsParquetName run_id, stamped)] }
    match txFailAfter with
    | none =>
        ({ st1 with table := st1.table ++ stamped },
         exports ++ [PersistEv.txBegin]
           ++ stamped.map (fun _ => PersistEv.insertRow)
           ++ [PersistEv.txCommit])
    | some k =>
        (st1,
         exports ++ [PersistEv.txBegin]
           ++ (stamped.take k).map (fun _ => PersistEv.insertRow)
           ++ [PersistEv.txRollback])

/-- Token loop of run main_async lines 106-112: fetch each token's posts
(an escaped exception aborts the whole run) and keep only the items inside
the inclusive [start, stop] window. -/
def cryptopanic_run_items (envs : String → List CPEvent) :
    List String → Int → Int → Int → Int →
    Except String (List BFMarketNewsEvents)
  | [], _start, _stop, _now, _today => Except.ok []
  | sym :: rest, start, stop, now, today =>
    match (fetch_posts (envs sym) sym now today).1 with
    | Except.error m => Except.error m
    | Except.ok items =>
      match cryptopanic_run_items envs rest start stop now today with
      | Except.error m => Except.error m
      | Except.ok more =>
          Except.ok (clientDateFilter start stop items ++ more)

/-- Model of backfill_cryptopanic.run main_async lines 103-134: accumulate the
filtered items of every token, persist once, log completion with the
accumulated count. -/
def cryptopanic_main (envs : String → List CPEvent) (tokens : List String)
    (start stop now today : Int) (run_id : String)
    (txFailAfter : Option Nat) (st : NewsSinkState) :
    Except String (NewsSinkState × List RunEv) :=
  match cryptopanic_run_items envs tokens start stop now today with
  | Except.error m => Except.error m
  | Except.ok all_rows =>
      Except.ok ((cryptopanic_persist all_rows run_id txFailAfter st).1,
        tokens.map RunEv.fetchTok ++ [RunEv.logComplete all_rows.length])

end Cryptopanic

namespace Lunarcrush

/-- Python or-chain on optional ints, where a present 0 is falsy. -/
def orInt (a : Option Int) (b : Int) : Int :=
  match a with
  | some x => if x = 0 then b else x
  | none => b

/-- Python or-chain on optional numerics, where a present 0.0 is falsy. -/
def orRat (a : Option Rat) (b : Rat) : Rat :=
  match a with
  | some x => if x = 0 then b else x
  | none => b

/-- Model of datetime.utcfromtimestamp(t).date() as an epoch-day number. -/
def epochDay (t : Int) : Int := Int.fdiv t 86400

/-- One point of a LunarCrush time series; field names vary by plan, so
the source tries several keys per value (lines 42-47). -/
structure LCPoint where
  time : Option Int
  timestamp : Option Int
  galaxy_score : Option Rat
  sentiment : Option Rat
  social_bullish : Option Int
  social_positive : Option Int
  social_bearish : Option Int
  social_negative : Option Int
  social_volume : Option Int
  deriving DecidableEq

/-- One series of the payload, with the two candidate time-series keys of
line 40. -/
structure LCSeries where
  timeSeries : Option (List LCPoint)
  time_series : Option (List LCPoint)
  deriving DecidableEq

/-- Decoded payload of the assets endpoint. -/
structure LCPayload where
  data : Option (List LCSeries)
  deriving DecidableEq

/-- Environment event for the single client.get call of fetch_daily. -/
inductive LCEvent where
  | raise (msg : String)
  | resp (status : Nat) (text : String) (payload : Option LCPayload)
  deriving DecidableEq

/-- Line 40: ts = series.get("timeSeries", []) or series.get("time_series", []). -/
def effTs (series : LCSeries) : List LCPoint :=
  let a := series.timeSeries.getD []
  if a.isEmpty then series.time_series.getD [] else a

/-- Record construction of fetch_daily lines 42-59: every value is read
through the source's or-chains of candidate keys, and backfill_run_id is
left empty. -/
def mkSentRow (symbol : String) (now : Int) (p : LCPoint) :
    BFMarketSentiment :=
  let pos := orInt p.social_bullish (orInt p.social_positive 0)
  let neg := orInt p.social_bearish (orInt p.social_negative 0)
  { token_symbol := pyUpper symbol
    date := epochDay (orInt p.time (orInt p.timestamp 0))
    sentiment_score := orRat p.galaxy_score (orRat p.sentiment 0)
    positive_mentions := pos
    negative_mentions := neg
    neutral_mentions := max ((p.social_volume.getD 0) - pos - neg) 0
    source_api := "lunarcrush"
    timestamp_fetched := now
    backfill_run_id := "" }

/-- Model of backfill_lunarcrush.fetch_daily lines 21-61: a single GET with no
try/except, so a transport exception or a json decode failure escapes as
`.error`; any non-200 status logs and returns []. -/
def fetch_daily (env : List LCEvent) (symbol : String) (now : Int) :
    Except String (List BFMarketSentiment) × List Ev :=
  match env.head? with
  | none => (Except.error "connection_lost", [Ev.request])
  | some (LCEvent.raise m) => (Except.error m, [Ev.request])
  | some (LCEvent.resp s _t p) =>
    if s ≠ 200 then
      (Except.ok [], [Ev.request, Ev.logError "lunarcrush_http_error"])
    else
      match p with
      | none => (Except.error "json_decode_error", [Ev.request])
      | some pl =>
          (Except.ok ((pl.data.getD []).flatMap fun series =>
            (effTs series).map (mkSentRow symbol now)), [Ev.request])

end Lunarcrush

/-!
Theorems about the embedded pipeline, one per specification claim,
with witnesses at concrete inputs for theorems that carry hypotheses.
-/

/-- Claim C1: for every non-empty batch and any run_id, upsert_and_export
writes the CSV and the parquet snapshot, both named by run_id and holding
all N stamped rows, strictly before any insert into the durable table
(the first two trace events are the two export writes and every insert
event sits at a later position); and when the transaction fails after any
number of inserts, the durable table is left unchanged while both export
files exist. -/
theorem c1_export_snapshot_before_insert (rows : List BFHistoricalMarketData)
    (run_id : String) (txf : Option Nat) (st : Coinapi.SinkState)
    (h : rows ≠ []) :
    ((Coinapi.upsert_and_export rows run_id txf st).2.get? 0 =
        some (PersistEv.exportCsv (Coinapi.csvName run_id) rows.length))
    ∧ ((Coinapi.upsert_and_export rows run_id txf st).2.get? 1 =
        some (PersistEv.exportParquet (Coinapi.parquetName run_id) rows.length))
    ∧ (∀ i e, (Coinapi.upsert_and_export rows run_id txf st).2.get? i = some e →
        isInsertEv e = true → 2 ≤ i)
    ∧ ((Coinapi.upsert_and_export rows run_id txf st).1.files =
        st.files ++ [(Coinapi.csvName run_id, Coinapi.stampRows rows run_id),
                     (Coinapi.parquetName run_id, Coinapi.stampRows rows run_id)])
    ∧ (Coinapi.stampRows rows run_id).length = rows.length
    ∧ (∀ k, txf = some k →
        (Coinapi.upsert_and_export rows run_id txf st).1.table = st.table) := by
  have hne : rows.isEmpty = false := by
    cases rows with
    | nil => exact absurd rfl h
    | cons a l => rfl
  refine ⟨?_, ?_, ?_, ?_, ?_, ?_⟩
  · cases txf <;>
      simp [Coinapi.upsert_and_export, hne, Coinapi.stampRows]
  · cases txf <;>
      simp [Coinapi.upsert_and_export, hne, Coinapi.stampRows]
  · intro i e hget hins
    match i with
    | 0 =>
      cases txf <;>
        simp [Coinapi.upsert_and_export, hne, List.get?] at hget <;>
        rw [hget.symm] at hins <;> simp [isInsertEv] at hins
    | 1 =>
      cases txf <;>
        simp [Coinapi.upsert_and_export, hne, List.get?] at hget <;>
        rw [hget.symm] at hins <;> simp [isInsertEv] at hins
    | (n + 2) => omega
  · cases txf <;>
      simp [Coinapi.upsert_and_export, hne]
  · exact List.length_map _ _
  · intro k hk
    cases txf with
    | none => cases hk
    | some k2 =>
      simp [Coinapi.upsert_and_export, hne]

/-- Witness for C1 at a concrete one-row batch with a failing transaction:
the CSV export event is first and the durable table stays empty. -/
theorem c1_export_snapshot_before_insert_witness :
    ((Coinapi.upsert_and_export [⟨"BTC", 0, 1, 2, 3, 4, 5, 6, "coinapi", ""⟩]
        "r1" (some 0) ⟨[], []⟩).2.get? 0 =
      some (PersistEv.exportCsv (Coinapi.csvName "r1") 1))
    ∧ ((Coinapi.upsert_and_export [⟨"BTC", 0, 1, 2, 3, 4, 5, 6, "coinapi", ""⟩]
        "r1" (some 0) ⟨[], []⟩).1.table = []) := by
  have h := c1_export_snapshot_before_insert
    [⟨"BTC", 0, 1, 2, 3, 4, 5, 6, "coinapi", ""⟩] "r1" (some 0) ⟨[], []⟩
    (List.cons_ne_nil _ _)
  exact ⟨h.1, h.2.2.2.2.2 0 rfl⟩

/-- Unfolding equation of daterange. -/
theorem daterange_unfold (start stop : Int) :
    Coinapi.daterange start stop =
      if start ≤ stop then start :: Coinapi.daterange (start + 1) stop
      else [] := by
  rw [Coinapi.daterange]

/-- Membership in daterange is exactly the inclusive window, by strong
induction on the window length. -/
theorem mem_daterange_aux (d : Int) : ∀ (n : Nat) (start stop : Int),
    (stop + 1 - start).toNat = n →
    (d ∈ Coinapi.daterange start stop ↔ start ≤ d ∧ d ≤ stop) := by
  intro n
  induction n with
  | zero =>
    intro s e hn
    rw [daterange_unfold]
    have hse : ¬ s ≤ e := by omega
    simp only [hse, if_false, List.not_mem_nil, false_iff]
    omega
  | succ k ih =>
    intro s e hn
    rw [daterange_unfold]
    by_cases hse : s ≤ e
    · simp only [hse, if_true, List.mem_cons]
      rw [ih (s + 1) e (by omega)]
      constructor
      · rintro (rfl | ⟨h1, h2⟩) <;> omega
      · rintro ⟨h1, h2⟩
        by_cases hd : d = s
        · exact Or.inl hd
        · exact Or.inr ⟨by omega, h2⟩
    · simp only [hse, if_false, List.not_mem_nil, false_iff]
      omega

/-- Membership in daterange is exactly the inclusive window. -/
theorem mem_daterange (start stop d : Int) :
    d ∈ Coinapi.daterange start stop ↔ start ≤ d ∧ d ≤ stop :=
  mem_daterange_aux d _ start stop rfl

/-- daterange is strictly increasing. -/
theorem daterange_sorted_aux : ∀ (n : Nat) (start stop : Int),
    (stop + 1 - start).toNat = n →
    List.Sorted (fun a b => a < b) (Coinapi.daterange start stop) := by
  intro n
  induction n with
  | zero =>
    intro s e hn
    rw [daterange_unfold]
    have hse : ¬ s ≤ e := by omega
    simp [hse]
  | succ k ih =>
    intro s e hn
    rw [daterange_unfold]
    by_cases hse : s ≤ e
    · simp only [hse, if_true, List.sorted_cons]
      refine ⟨?_, ih (s + 1) e (by omega)⟩
      intro b hb
      have := (mem_daterange (s + 1) e b).mp hb
      omega
    · simp [hse]

/-- daterange is strictly increasing. -/
theorem daterange_sorted (start stop : Int) :
    List.Sorted (fun a b => a < b) (Coinapi.daterange start stop) :=
  daterange_sorted_aux _ start stop rfl

/-- daterange has no duplicate dates. -/
theorem daterange_nodup (start stop : Int) :
    (Coinapi.daterange start stop).Nodup :=
  (daterange_sorted start stop).nodup

/-- Work-item membership: the coordinator's work list is exactly the
Cartesian product tokens times inclusive window. -/
theorem mem_runWorkItems (tokens : List String) (s e : Int)
    (t : String) (d : Int) :
    (t, d) ∈ Coinapi.runWorkItems tokens s e ↔
      t ∈ tokens ∧ s ≤ d ∧ d ≤ e := by
  simp only [Coinapi.runWorkItems, List.mem_flatMap, List.mem_map,
    Prod.mk.injEq]
  constructor
  · rintro ⟨a, ha, x, hx, rfl, rfl⟩
    exact ⟨ha, (mem_daterange s e x).mp hx⟩
  · rintro ⟨ht, h1, h2⟩
    exact ⟨t, ht, d, (mem_daterange s e d).mpr ⟨h1, h2⟩, rfl, rfl⟩

/-- With a duplicate-free token list the work list itself is
duplicate-free: each token-date pair is visited exactly once. -/
theorem runWorkItems_nodup (tokens : List String) (s e : Int)
    (h : tokens.Nodup) : (Coinapi.runWorkItems tokens s e).Nodup := by
  induction tokens with
  | nil => simp [Coinapi.runWorkItems]
  | cons a l ih =>
    rw [Coinapi.runWorkItems, List.flatMap_cons]
    have hl : l.Nodup := (List.nodup_cons.mp h).2
    have ha : a ∉ l := (List.nodup_cons.mp h).1
    apply List.Nodup.append
    · exact (daterange_nodup s e).map (fun x y hxy => by
        cases hxy
        rfl)
    · exact ih hl
    · intro p hp hq
      simp only [List.mem_map] at hp
      obtain ⟨x, _, rfl⟩ := hp
      have := (mem_runWorkItems l s e a x).mp hq
      exact ha this.1

/-- Claim C6: for any duplicate-free token list and window with
start ≤ end, the day-granularity coordinator visits exactly the Cartesian
product of tokens and the inclusive window, each pair exactly once, tokens
in the outer loop with the inner dates strictly ascending; daterange
yields each date of the inclusive window exactly once and yields nothing
when start > end. -/
theorem c6_coordinator_visits_cartesian_product (tokens : List String)
    (s e d : Int) (t : String) (hnd : tokens.Nodup) (hse : s ≤ e) :
    ((t, d) ∈ Coinapi.runWorkItems tokens s e ↔
        t ∈ tokens ∧ s ≤ d ∧ d ≤ e)
    ∧ (Coinapi.runWorkItems tokens s e).Nodup
    ∧ (d ∈ Coinapi.daterange s e ↔ s ≤ d ∧ d ≤ e)
    ∧ List.Sorted (fun a b => a < b) (Coinapi.daterange s e)
    ∧ (Coinapi.daterange s e).Nodup
    ∧ (∀ s2 e2 : Int, e2 < s2 → Coinapi.daterange s2 e2 = [])
    ∧ Coinapi.runWorkItems tokens s e =
        tokens.flatMap fun tk => (Coinapi.daterange s e).map fun dy => (tk, dy) := by
  refine ⟨mem_runWorkItems tokens s e t d, runWorkItems_nodup tokens s e hnd,
    mem_daterange s e d, daterange_sorted s e, daterange_nodup s e, ?_, rfl⟩
  intro s2 e2 h2
  rw [daterange_unfold]
  simp only [if_neg (by omega : ¬ s2 ≤ e2)]

/-- Witness for C6 on tokens=[BTC, ETH] and the window 0..1: the pair
(ETH, 1) is visited, the work list is duplicate-free, and an inverted
window yields no dates. -/
theorem c6_coordinator_visits_cartesian_product_witness :
    ("ETH", (1 : Int)) ∈ Coinapi.runWorkItems ["BTC", "ETH"] 0 1
    ∧ (Coinapi.runWorkItems ["BTC", "ETH"] 0 1).Nodup
    ∧ Coinapi.daterange 5 4 = [] := by
  have h := c6_coordinator_visits_cartesian_product ["BTC", "ETH"] 0 1 1 "ETH"
    (by decide) (by decide)
  exact ⟨h.1.mpr ⟨by decide, by decide, by decide⟩, h.2.1,
    h.2.2.2.2.2.1 5 4 (by decide)⟩

/-- Counterexample to claim C2: the CryptoPanic adapter does not retry on
a rate-limit response. On a 429 followed by a success page holding one
item, fetch_posts logs the status and stops after a single request: no
1-second sleep, no second request, and zero records instead of the one
fetch result the claim requires for every provider adapter. -/
theorem c2_counterexample_news_adapter_does_not_retry :
    Cryptopanic.fetch_posts
      [Cryptopanic.CPEvent.resp 429 "Rate limited" none,
       Cryptopanic.CPEvent.resp 200 ""
         (some ⟨[⟨none, none, none, none, none, none, none, none, none⟩],
                none⟩)]
      "BTC" 0 0
    = (Except.ok [], [Ev.request, Ev.logError "cryptopanic_http_error"]) := by
  rfl

/-- Claim C2 as amended: only the CoinAPI adapter has the rate-limit
retry. For fetch_day, a 429 causes a 1-second sleep and exactly one
retry: 429 then success yields exactly one fetch result over exactly two
requests, and a second 429 or any non-success status after the single
retry yields the empty record list with a logged status, not an
exception. The CryptoPanic adapter instead treats 429 like any other
non-success status: it logs and ends the fetch after one request with the
records gathered so far and no retry. -/
theorem c2_amended_rate_limit_retry_coinapi_only (sym : String)
    (day now : Int) (t1 t2 : String) (b1 : Option (List Coinapi.CoinRow))
    (row : Coinapi.CoinRow) (s2 : Nat) (b2 : Option (List Coinapi.CoinRow))
    (h : s2 ≠ 200) (tok : String) (today : Int) (t3 : String)
    (p3 : Option Cryptopanic.CPPayload) (rest : List Cryptopanic.CPEvent) :
    Coinapi.fetch_day
        [Coinapi.CoinEvent.resp 429 t1 b1,
         Coinapi.CoinEvent.resp 200 t2 (some [row])] sym day now
      = (Except.ok [Coinapi.mkCoinItem sym day now row],
         [Ev.request, Ev.sleep1s, Ev.request])
    ∧ Coinapi.fetch_day
        [Coinapi.CoinEvent.resp 429 t1 b1,
         Coinapi.CoinEvent.resp s2 t2 b2] sym day now
      = (Except.ok [],
         [Ev.request, Ev.sleep1s, Ev.request,
          Ev.logError "coinapi_http_error"])
    ∧ Cryptopanic.fetch_posts
        (Cryptopanic.CPEvent.resp 429 t3 p3 :: rest) tok now today
      = (Except.ok [], [Ev.request, Ev.logError "cryptopanic_http_error"]) := by
  refine ⟨rfl, ?_, rfl⟩
  simp [Coinapi.fetch_day, Coinapi.fetch_day_try, Coinapi.retryOn429,
    Coinapi.parseBody, Coinapi.nthEvent, h]

/-- Witness for the amended C2 at a concrete double-429 environment. -/
theorem c2_amended_rate_limit_retry_coinapi_only_witness :
    Coinapi.fetch_day
      [Coinapi.CoinEvent.resp 429 "Rate limited" none,
       Coinapi.CoinEvent.resp 429 "Rate limited" none] "BTC" 0 7
    = (Except.ok [],
       [Ev.request, Ev.sleep1s, Ev.request,
        Ev.logError "coinapi_http_error"]) :=
  (c2_amended_rate_limit_retry_coinapi_only "BTC" 0 7 "Rate limited"
    "Rate limited" none ⟨none, none, none, none, none⟩ 429 none
    (by decide) "BTC" 0 "" none []).2.1

/-- Counterexample to claim C3: in the CryptoPanic adapter a
transport-level error raised by the GET is not caught inside fetch_posts;
it escapes to the coordinator loop instead of becoming a failure value. -/
theorem c3_counterexample_transport_error_escapes :
    Cryptopanic.fetch_posts [Cryptopanic.CPEvent.raise "connection reset"]
      "BTC" 0 0
    = (Except.error "connection reset", [Ev.request]) := by
  rfl

/-- Claim C3 as amended: only the CoinAPI adapter catches transport-level
errors inside the fetch. fetch_day never lets an exception escape (for
every environment it returns an ok record list), while in the CryptoPanic
and LunarCrush adapters a transport error raised during the fetch escapes
fetch_posts and fetch_daily to the coordinator loop. -/
theorem c3_amended_only_coinapi_catches_transport_errors
    (envC : List Coinapi.CoinEvent) (sym : String) (day now : Int)
    (m2 m3 : String) (tok lsym : String) (today now2 : Int)
    (envRest : List Cryptopanic.CPEvent) :
    (∃ recs tr, Coinapi.fetch_day envC sym day now = (Except.ok recs, tr))
    ∧ Cryptopanic.fetch_posts (Cryptopanic.CPEvent.raise m2 :: envRest)
        tok now today = (Except.error m2, [Ev.request])
    ∧ Lunarcrush.fetch_daily [Lunarcrush.LCEvent.raise m3] lsym now2
      = (Except.error m3, [Ev.request]) := by
  refine ⟨?_, rfl, rfl⟩
  rcases hft : Coinapi.fetch_day_try envC sym day now with ⟨res, tr⟩
  cases res with
  | ok recs => exact ⟨recs, tr, by simp [Coinapi.fetch_day, hft]⟩
  | error m =>
      exact ⟨[], tr ++ [Ev.logError "coinapi_exception"],
        by simp [Coinapi.fetch_day, hft]⟩

/-- Claim C4: a response item with missing or partial fields becomes a
canonical record built from the type's defaults (0.0 for numeric fields,
empty string for text fields) instead of raising; every item of a page
yields exactly one record in the batch, so a malformed item is neither
dropped nor able to abort the window. Stated for the news adapter (full
page mapped one-to-one, all-defaults item) and the price adapter
(all-defaults row). -/
theorem c4_missing_fields_default_never_dropped (tok sym : String)
    (now today day : Int) (t1 t2 : String)
    (results : List Cryptopanic.CPItem) :
    (Cryptopanic.fetch_posts
        [Cryptopanic.CPEvent.resp 200 t1 (some ⟨results, none⟩)]
        tok now today).1
      = Except.ok (results.map (Cryptopanic.mkNewsItem tok now today))
    ∧ Cryptopanic.mkNewsItem tok now today
        ⟨none, none, none, none, none, none, none, none, none⟩
      = ⟨pyUpper tok, today, "", "", "cryptopanic", 0, "", now, ""⟩
    ∧ Coinapi.fetch_day
        [Coinapi.CoinEvent.resp 200 t2 (some [⟨none, none, none, none, none⟩])]
        sym day now
      = (Except.ok [⟨sym, day, 0, 0, 0, 0, 0, now, "coinapi", ""⟩],
         [Ev.request]) := by
  exact ⟨rfl, rfl, rfl⟩

/-- Claim C5: when a news item carries no numeric panic_score, the derived
sentiment score is (bullish - bearish) / (bullish + bearish) over the
combined positive (bullish + liked) and negative (bearish + disliked)
vote counts; it always lies in [-1, 1], and when both combined counts are
zero it is exactly 0, never a division by zero. -/
theorem c5_derived_sentiment_bounded (it : Cryptopanic.CPItem)
    (h : it.panic_score = none) :
    (Cryptopanic.sentiment_from_item it =
      if 0 < Cryptopanic.combinedBullish it + Cryptopanic.combinedBearish it
      then ((Cryptopanic.combinedBullish it : Rat) -
              (Cryptopanic.combinedBearish it : Rat)) /
           ((Cryptopanic.combinedBullish it +
              Cryptopanic.combinedBearish it : Nat) : Rat)
      else 0)
    ∧ -1 ≤ Cryptopanic.sentiment_from_item it
    ∧ Cryptopanic.sentiment_from_item it ≤ 1
    ∧ (Cryptopanic.combinedBullish it = 0 →
        Cryptopanic.combinedBearish it = 0 →
        Cryptopanic.sentiment_from_item it = 0) := by
  have hform : Cryptopanic.sentiment_from_item it =
      if 0 < Cryptopanic.combinedBullish it + Cryptopanic.combinedBearish it
      then ((Cryptopanic.combinedBullish it : Rat) -
              (Cryptopanic.combinedBearish it : Rat)) /
           ((Cryptopanic.combinedBullish it +
              Cryptopanic.combinedBearish it : Nat) : Rat)
      else 0 := by
    simp only [Cryptopanic.sentiment_from_item, h]
  refine ⟨hform, ?_, ?_, ?_⟩
  · rw [hform]
    by_cases h0 : 0 < Cryptopanic.combinedBullish it + Cryptopanic.combinedBearish it
    · rw [if_pos h0]
      have htot : (0 : Rat) <
          ((Cryptopanic.combinedBullish it +
            Cryptopanic.combinedBearish it : Nat) : Rat) := by
        exact_mod_cast h0
      rw [le_div_iff₀ htot]
      push_cast
      have hb : (0 : Rat) ≤ (Cryptopanic.combinedBullish it : Rat) := by positivity
      have hr : (0 : Rat) ≤ (Cryptopanic.combinedBearish it : Rat) := by positivity
      linarith
    · rw [if_neg h0]
      norm_num
  · rw [hform]
    by_cases h0 : 0 < Cryptopanic.combinedBullish it + Cryptopanic.combinedBearish it
    · rw [if_pos h0]
      have htot : (0 : Rat) <
          ((Cryptopanic.combinedBullish it +
            Cryptopanic.combinedBearish it : Nat) : Rat) := by
        exact_mod_cast h0
      rw [div_le_one htot]
      push_cast
      have hb : (0 : Rat) ≤ (Cryptopanic.combinedBullish it : Rat) := by positivity
      have hr : (0 : Rat) ≤ (Cryptopanic.combinedBearish it : Rat) := by positivity
      linarith
    · rw [if_neg h0]
      norm_num
  · intro hb0 hr0
    rw [hform, hb0, hr0]
    norm_num

/-- Witness for C5: with votes bullish=3, liked=1, bearish=1 the score is
bounded, and with no votes at all it is exactly 0. -/
theorem c5_derived_sentiment_bounded_witness :
    (-1 ≤ Cryptopanic.sentiment_from_item
        ⟨none, none, none, none, none, none, none, none,
         some ⟨some 3, some 1, some 1, none⟩⟩)
    ∧ (Cryptopanic.sentiment_from_item
        ⟨none, none, none, none, none, none, none, none,
         some ⟨some 3, some 1, some 1, none⟩⟩ ≤ 1)
    ∧ (Cryptopanic.sentiment_from_item
        ⟨none, none, none, none, none, none, none, none, none⟩ = 0) :=
  ⟨(c5_derived_sentiment_bounded
      ⟨none, none, none, none, none, none, none, none,
       some ⟨some 3, some 1, some 1, none⟩⟩ rfl).2.1,
   (c5_derived_sentiment_bounded
      ⟨none, none, none, none, none, none, none, none,
       some ⟨some 3, some 1, some 1, none⟩⟩ rfl).2.2.1,
   (c5_derived_sentiment_bounded
      ⟨none, none, none, none, none, none, none, none, none⟩ rfl).2.2.2
     rfl rfl⟩

/-- Every record fetch_day ever returns was built by mkCoinItem, so its
backfill_run_id is the empty string. -/
theorem fetch_day_records_inflight (env : List Coinapi.CoinEvent)
    (sym : String) (day now : Int) :
    ∀ r ∈ Coinapi.recsOf (Coinapi.fetch_day env sym day now),
      r.backfill_run_id = "" := by
  intro r hr
  unfold Coinapi.recsOf Coinapi.fetch_day Coinapi.fetch_day_try at hr
  cases h0 : Coinapi.nthEvent env 0 with
  | raise m =>
    rw [h0] at hr
    simp at hr
  | resp s t p =>
    rw [h0] at hr
    simp only at hr
    rcases h1 : Coinapi.retryOn429 env s p with ⟨res, tr⟩
    rw [h1] at hr
    cases res with
    | error m => simp at hr
    | ok sp =>
      rcases sp with ⟨s3, p3⟩
      simp only at hr
      unfold Coinapi.parseBody at hr
      by_cases h200 : s3 ≠ 200
      · rw [if_pos h200] at hr
        simp at hr
      · rw [if_neg h200] at hr
        cases p3 with
        | none => simp at hr
        | some rowsl =>
          cases rowsl with
          | nil => simp at hr
          | cons row tl =>
            simp at hr
            rw [hr]
            rfl

/-- Claim C7: every canonical record created at adapter-fetch time has an
empty backfill_run_id (it is in-flight), and the run id is stamped only at
persist time: every stamped row carries the caller-supplied run_id, the
export files and durable rows added by upsert_and_export hold exactly the
stamped rows, and the coordinator trace shows a single hand-off to the
sink after all work-item fetches, with no intermediate flush. -/
theorem c7_run_id_stamped_at_persist_time (env : List Coinapi.CoinEvent)
    (sym : String) (day now : Int) (tok : String) (today : Int)
    (it : Cryptopanic.CPItem) (rows : List BFHistoricalMarketData)
    (run_id : String) (txf : Option Nat) (st : Coinapi.SinkState)
    (envs : String → Int → List Coinapi.CoinEvent)
    (tokens : List String) (s e : Int) :
    (∀ r ∈ Coinapi.recsOf (Coinapi.fetch_day env sym day now),
        r.backfill_run_id = "")
    ∧ (Cryptopanic.mkNewsItem tok now today it).backfill_run_id = ""
    ∧ (∀ r ∈ Coinapi.stampRows rows run_id, r.backfill_run_id = run_id)
    ∧ ((Coinapi.upsert_and_export rows run_id txf st).1.files =
        st.files ++ (if rows.isEmpty then []
          else [(Coinapi.csvName run_id, Coinapi.stampRows rows run_id),
                (Coinapi.parquetName run_id, Coinapi.stampRows rows run_id)]))
    ∧ (txf = none →
        (Coinapi.upsert_and_export rows run_id txf st).1.table =
          st.table ++ (if rows.isEmpty then []
            else Coinapi.stampRows rows run_id))
    ∧ ((Coinapi.coinapi_main envs tokens s e now run_id txf st).2 =
        (Coinapi.runWorkItems tokens s e).map
            (fun p => RunEv.fetchItem p.1 p.2)
          ++ [RunEv.persist (Coinapi.coinapiAllRows envs tokens s e now).length,
              RunEv.logComplete
                (Coinapi.coinapiAllRows envs tokens s e now).length]) := by
  refine ⟨fetch_day_records_inflight env sym day now, rfl, ?_, ?_, ?_, rfl⟩
  · intro r hr
    simp only [Coinapi.stampRows, List.mem_map] at hr
    obtain ⟨r0, _, rfl⟩ := hr
    rfl
  · by_cases hemp : rows.isEmpty
    · simp [Coinapi.upsert_and_export, hemp]
    · cases txf <;>
        simp [Coinapi.upsert_and_export, Bool.of_not_eq_true hemp]
  · intro htx
    subst htx
    by_cases hemp : rows.isEmpty
    · simp [Coinapi.upsert_and_export, hemp]
    · simp [Coinapi.upsert_and_export, Bool.of_not_eq_true hemp]

/-- Witness for C7 at a concrete one-row batch with a committing
transaction: the fetched record is in-flight and the durable table gains
exactly the stamped row. -/
theorem c7_run_id_stamped_at_persist_time_witness :
    ((Coinapi.upsert_and_export [⟨"BTC", 0, 1, 2, 3, 4, 5, 6, "coinapi", ""⟩]
        "r9" none ⟨[], []⟩).1.table =
      [] ++ (if ([⟨"BTC", 0, 1, 2, 3, 4, 5, 6, "coinapi", ""⟩] :
          List BFHistoricalMarketData).isEmpty then []
        else Coinapi.stampRows [⟨"BTC", 0, 1, 2, 3, 4, 5, 6, "coinapi", ""⟩] "r9"))
    ∧ (Cryptopanic.mkNewsItem "btc" 9 100
        ⟨none, none, none, none, none, none, none, none, none⟩).backfill_run_id
      = "" := by
  have h := c7_run_id_stamped_at_persist_time [] "BTC" 0 0 "btc" 100
    ⟨none, none, none, none, none, none, none, none, none⟩
    [⟨"BTC", 0, 1, 2, 3, 4, 5, 6, "coinapi", ""⟩] "r9" none ⟨[], []⟩
    (fun _ _ => []) [] 0 0
  exact ⟨h.2.2.2.2.1 rfl, h.2.1⟩

/-- Counting through a filter: copies of x survive exactly when the
predicate holds of x. -/
theorem count_filter_news (p : BFMarketNewsEvents → Bool)
    (x : BFMarketNewsEvents) (items : List BFMarketNewsEvents) :
    (items.filter p).count x = if p x = true then items.count x else 0 := by
  induction items with
  | nil => simp
  | cons a l ih =>
    by_cases hpa : p a = true
    · rw [List.filter_cons_of_pos hpa]
      by_cases hax : a = x
      · subst hax
        simp [List.count_cons_self, ih, hpa]
      · rw [List.count_cons_of_ne (fun hh => hax hh.symm),
          List.count_cons_of_ne (fun hh => hax hh.symm), ih]
    · rw [List.filter_cons_of_neg hpa]
      by_cases hax : a = x
      · subst hax
        rw [ih, if_neg hpa, List.count_cons_self]
        simp [hpa]
      · rw [List.count_cons_of_ne (fun hh => hax hh.symm), ih]

/-- Claim C8: the news provider filters by date range client-side after an
unfiltered fetch. A record is in the filtered list exactly when it was
fetched and its date lies in the inclusive [start, end] window, with
multiplicity preserved for in-window items and zero for out-of-window
items; and the run's per-token accumulation is exactly the client-side
filter applied to the fetched items. -/
theorem c8_client_side_date_filter (s e : Int)
    (items : List BFMarketNewsEvents) (x : BFMarketNewsEvents)
    (envs : String → List Cryptopanic.CPEvent) (sym : String)
    (now today : Int) (its : List BFMarketNewsEvents)
    (hfetch : (Cryptopanic.fetch_posts (envs sym) sym now today).1 =
      Except.ok its) :
    (x ∈ Cryptopanic.clientDateFilter s e items ↔
        x ∈ items ∧ s ≤ x.date ∧ x.date ≤ e)
    ∧ ((Cryptopanic.clientDateFilter s e items).count x =
        if s ≤ x.date ∧ x.date ≤ e then items.count x else 0)
    ∧ Cryptopanic.cryptopanic_run_items envs [sym] s e now today =
        Except.ok (Cryptopanic.clientDateFilter s e its) := by
  refine ⟨?_, ?_, ?_⟩
  · simp [Cryptopanic.clientDateFilter, List.mem_filter, and_assoc]
  · rw [Cryptopanic.clientDateFilter, count_filter_news]
    by_cases hp : s ≤ x.date ∧ x.date ≤ e
    · rw [if_pos hp, if_pos]
      simp [hp.1, hp.2]
    · rw [if_neg hp, if_neg]
      simp only [Bool.and_eq_true, decide_eq_true_eq]
      intro hc
      exact hp hc
  · unfold Cryptopanic.cryptopanic_run_items
    rw [hfetch]
    simp [Cryptopanic.cryptopanic_run_items]

/-- Witness for C8 with a one-page fetch returning a single default item
dated today=100 and the window 0..1: the accumulated list is the filtered
(empty) list. -/
theorem c8_client_side_date_filter_witness :
    Cryptopanic.cryptopanic_run_items
        (fun _ => [Cryptopanic.CPEvent.resp 200 ""
          (some ⟨[⟨none, none, none, none, none, none, none, none, none⟩],
                 none⟩)])
        ["BTC"] 0 1 9 100 =
      Except.ok (Cryptopanic.clientDateFilter 0 1
        [⟨"BTC", 100, "", "", "cryptopanic", 0, "", 9, ""⟩]) :=
  (c8_client_side_date_filter 0 1 [] ⟨"BTC", 100, "", "", "cryptopanic", 0, "", 9, ""⟩
    (fun _ => [Cryptopanic.CPEvent.resp 200 ""
      (some ⟨[⟨none, none, none, none, none, none, none, none, none⟩], none⟩)])
    "BTC" 9 100 [⟨"BTC", 100, "", "", "cryptopanic", 0, "", 9, ""⟩] rfl).2.2

/-- Claim C9: an empty accumulated batch produces no writes at all: the
price-sink upsert_and_export returns with no export file, no transaction
and an unchanged state, the news persistence section likewise, and a run
whose accumulation is empty still completes, logging a zero-count
completion event rather than erroring. -/
theorem c9_empty_batch_no_writes (run_id : String) (txf : Option Nat)
    (st : Coinapi.SinkState) (stN : Cryptopanic.NewsSinkState)
    (envs : String → List Cryptopanic.CPEvent) (tokens : List String)
    (s e now today : Int)
    (hempty : Cryptopanic.cryptopanic_run_items envs tokens s e now today =
      Except.ok []) :
    Coinapi.upsert_and_export [] run_id txf st = (st, [])
    ∧ Cryptopanic.cryptopanic_persist [] run_id txf stN = (stN, [])
    ∧ Cryptopanic.cryptopanic_main envs tokens s e now today run_id txf stN
      = Except.ok (stN, tokens.map RunEv.fetchTok ++ [RunEv.logComplete 0]) := by
  refine ⟨rfl, rfl, ?_⟩
  unfold Cryptopanic.cryptopanic_main
  rw [hempty]
  rfl

/-- Witness for C9: one token whose fetch gets a server error accumulates
nothing; the run completes with a zero count and the news sink state is
untouched. -/
theorem c9_empty_batch_no_writes_witness :
    Coinapi.upsert_and_export [] "r2" (some 0) ⟨[], []⟩ = (⟨[], []⟩, [])
    ∧ Cryptopanic.cryptopanic_main
        (fun _ => [Cryptopanic.CPEvent.resp 500 "boom" none]) ["BTC"]
        0 1 9 100 "r2" (some 0) ⟨[], []⟩
      = Except.ok (⟨[], []⟩,
          ["BTC"].map RunEv.fetchTok ++ [RunEv.logComplete 0]) := by
  have h := c9_empty_batch_no_writes "r2" (some 0) ⟨[], []⟩ ⟨[], []⟩
    (fun _ => [Cryptopanic.CPEvent.resp 500 "boom" none]) ["BTC"]
    0 1 9 100 rfl
  exact ⟨h.1, h.2.2⟩

/-- Claim C10: a news item whose published_at/created_at timestamp is
absent or unparseable gets today's UTC date instead of failing the fetch,
and for a historical window ending before today such a record is excluded
from the accumulated batch by the client-side date filter. -/
theorem c10_unparseable_date_defaults_to_today (tok : String)
    (now today s e : Int) (it : Cryptopanic.CPItem)
    (items : List BFMarketNewsEvents)
    (hparse : Cryptopanic.itemDateStr it = none) (hend : e < today) :
    (Cryptopanic.mkNewsItem tok now today it).date = today
    ∧ Cryptopanic.mkNewsItem tok now today it ∉
        Cryptopanic.clientDateFilter s e items := by
  have hdate : (Cryptopanic.mkNewsItem tok now today it).date = today := by
    simp [Cryptopanic.mkNewsItem, Cryptopanic.parse_date, hparse]
  refine ⟨hdate, ?_⟩
  intro hmem
  have hp := (List.mem_filter.mp hmem).2
  rw [hdate] at hp
  simp only [Bool.and_eq_true, decide_eq_true_eq] at hp
  omega

/-- Witness for C10: an all-defaults item fetched while today=100 is dated
100 and does not survive the 0..1 window filter over a batch holding
exactly its record. -/
theorem c10_unparseable_date_defaults_to_today_witness :
    (Cryptopanic.mkNewsItem "btc" 9 100
        ⟨none, none, none, none, none, none, none, none, none⟩).date = 100
    ∧ Cryptopanic.mkNewsItem "btc" 9 100
        ⟨none, none, none, none, none, none, none, none, none⟩ ∉
        Cryptopanic.clientDateFilter 0 1
          [⟨"BTC", 100, "", "", "cryptopanic", 0, "", 9, ""⟩] :=
  c10_unparseable_date_defaults_to_today "btc" 9 100 0 1
    ⟨none, none, none, none, none, none, none, none, none⟩
    [⟨"BTC", 100, "", "", "cryptopanic", 0, "", 9, ""⟩] rfl (by decide)
